import Mathlib

/-!
Shallow embedding of the `deploy_lambdas` repository: four AWS Lambda
entry points (producer, SQS push-mode consumer, RabbitMQ pull-mode
consumer, and the comparison/aggregation endpoint), translated from
`src/lambda/*/lambda_function.py`.

Modelling conventions, fixed once for the whole file:
* Python floats are modelled as rationals (`ℚ`).  `round(x, n)` is
  modelled exactly as round-half-to-even on rationals (`pyRound`),
  which is Python 3's documented rounding mode for `round`.
* `int(len(xs) * 0.95)` in `calculate_statistics` is modelled as the
  exact floor `(len * 95) / 100` in `ℕ`: the double-precision product
  `L * 0.95` is always strictly within `0.05` of the exact rational
  value scaled by the relative error `2⁻⁵³·L`, so truncation agrees
  with the exact floor for every realistic list length.
* ISO-8601 timestamp strings are abstracted to `TsInput`: either a
  value that `datetime.fromisoformat` accepts (carrying the denoted
  instant as a rational number of seconds) or a malformed/absent value
  on which parsing raises.  The consumers generate `timestamp_received`
  themselves via `utcnow`, so it is always well formed and is modelled
  as a plain rational clock reading.
* External effects (S3 puts, queue acks, the random processing
  simulation, the wall clock) are injected as explicit per-message
  data; a boolean records whether the corresponding S3 `put_object`
  attempt succeeds, matching `store_metrics_to_s3`'s `True`/`False`
  contract (it swallows its own exceptions).
-/

namespace DeployLambdas

/-- Round-half-to-even to an integer, the rounding used by Python 3's
built-in `round`: nearest integer, ties to the even neighbour. -/
def roundHalfEven (q : ℚ) : ℤ :=
  let f : ℤ := ⌊q⌋
  let r : ℚ := q - f
  if r < 1/2 then f
  else if 1/2 < r then f + 1
  else if f % 2 = 0 then f else f + 1

/-- Python's `round(q, d)`: round half to even at `d` decimal digits. -/
def pyRound (d : ℕ) (q : ℚ) : ℚ :=
  (roundHalfEven (q * 10 ^ d) : ℚ) / 10 ^ d

/-- Minimum of a list, as Python's `min` on a non-empty list. -/
def listMin : List ℚ → ℚ
  | [] => 0
  | x :: xs => xs.foldl min x

/-- Maximum of a list, as Python's `max` on a non-empty list. -/
def listMax : List ℚ → ℚ
  | [] => 0
  | x :: xs => xs.foldl max x

/-- Sum of a list of rationals, as Python's `sum`. -/
def listSum (l : List ℚ) : ℚ := l.foldl (· + ·) 0

/-- An inbound timestamp value: either one that
`datetime.fromisoformat(s.replace('Z', '+00:00'))` parses, abstracted
to the denoted instant in seconds, or a malformed/absent value on
which that call raises. -/
inductive TsInput where
  | valid (t : ℚ)
  | malformed
deriving DecidableEq, Repr

/-- Parse outcome of a `TsInput`. -/
def TsInput.parseTs : TsInput → Option ℚ
  | .valid t => some t
  | .malformed => none

/-- Embedding of `calculate_latency` (identical in
`consumer-sqs/lambda_function.py` lines 19-28 and
`consumer-rabbitmq/lambda_function.py` lines 26-35): on two parseable
timestamps it returns `(received - sent)` in milliseconds; any parse
exception is caught and yields `0`.  The function is total: it never
propagates an exception. -/
def calculate_latency (timestamp_sent timestamp_received : TsInput) : ℚ :=
  match timestamp_sent.parseTs, timestamp_received.parseTs with
  | some sent, some received => (received - sent) * 1000
  | _, _ => 0

/-! ## Aggregator (`comparison/lambda_function.py`) -/

/-- One metric record as fetched back from S3 by the Aggregator, a
JSON dict accessed only via `.get`; each field the code reads is an
`Option` so that an absent key is representable. -/
structure Metric where
  queue_type : Option String
  latency_ms : Option ℚ
  processing_time_ms : Option ℚ
  status : Option String
  timestamp_received : Option String
deriving DecidableEq, Repr

/-- The per-queue accumulator seeded by the `defaultdict` in
`calculate_statistics` (lines 56-62). -/
structure GroupAcc where
  count : ℕ
  latencies : List ℚ
  processing_times : List ℚ
  successful : ℕ
  failed : ℕ
deriving DecidableEq, Repr

/-- The `defaultdict` default value. -/
def emptyGroup : GroupAcc :=
  { count := 0, latencies := [], processing_times := [], successful := 0, failed := 0 }

/-- Update the entry for `k` in an insertion-ordered association list,
inserting `f emptyGroup` at the end if `k` is absent — the behaviour
of mutating `stats_by_queue[k]` on a `defaultdict` (Python dicts
preserve insertion order). -/
def updAssoc (l : List (String × GroupAcc)) (k : String) (f : GroupAcc → GroupAcc) :
    List (String × GroupAcc) :=
  match l with
  | [] => [(k, f emptyGroup)]
  | (k', g) :: rest =>
    if k' = k then (k', f g) :: rest else (k', g) :: updAssoc rest k f

/-- The grouping key of one metric: `metric.get('queue_type', 'unknown')`. -/
def groupKey (m : Metric) : String := m.queue_type.getD "unknown"

/-- One iteration of the grouping loop of `calculate_statistics`
(lines 64-76): bump the count, append latency and processing time
(defaulting absent values to `0`), and classify the record as
successful exactly when `status == 'successful'`. -/
def groupStep (acc : List (String × GroupAcc)) (m : Metric) : List (String × GroupAcc) :=
  updAssoc acc (groupKey m) fun g =>
    { count := g.count + 1
      latencies := g.latencies ++ [m.latency_ms.getD 0]
      processing_times := g.processing_times ++ [m.processing_time_ms.getD 0]
      successful := if m.status = some "successful" then g.successful + 1 else g.successful
      failed := if m.status = some "successful" then g.failed else g.failed + 1 }

/-- The grouping phase of `calculate_statistics`. -/
def groupFold (metrics : List Metric) : List (String × GroupAcc) :=
  metrics.foldl groupStep []

/-- The latency block of one `summary[queue_type]` entry (lines
90-97): sort ascending and read off avg/min/max, the median at index
`L // 2`, and the p95/p99 at index `int(L * p)` guarded by
`if len > 1 else latencies[0]`. -/
structure LatStats where
  avg_ms : ℚ
  min_ms : ℚ
  max_ms : ℚ
  median_ms : ℚ
  p95_ms : ℚ
  p99_ms : ℚ
deriving DecidableEq, Repr

/-- The processing-time block of one `summary[queue_type]` entry
(lines 98-102). -/
structure ProcStats where
  avg_ms : ℚ
  min_ms : ℚ
  max_ms : ℚ
deriving DecidableEq, Repr

/-- Latency statistics of one group, from `calculate_statistics` lines
85 and 90-97.  `sorted(...)` is Python's stable ascending sort,
embedded as insertion sort on `ℚ`. -/
def latencyStats (ls : List ℚ) : LatStats :=
  let lat := List.insertionSort (· ≤ ·) ls
  { avg_ms := pyRound 2 (listSum lat / lat.length)
    min_ms := pyRound 2 (listMin lat)
    max_ms := pyRound 2 (listMax lat)
    median_ms := pyRound 2 (lat.getD (lat.length / 2) 0)
    p95_ms := if 1 < lat.length then pyRound 2 (lat.getD (lat.length * 95 / 100) 0)
              else pyRound 2 (lat.getD 0 0)
    p99_ms := if 1 < lat.length then pyRound 2 (lat.getD (lat.length * 99 / 100) 0)
              else pyRound 2 (lat.getD 0 0) }

/-- Processing-time statistics of one group, lines 86 and 98-102. -/
def procStats (ps : List ℚ) : ProcStats :=
  let pt := List.insertionSort (· ≤ ·) ps
  { avg_ms := pyRound 2 (listSum pt / pt.length)
    min_ms := pyRound 2 (listMin pt)
    max_ms := pyRound 2 (listMax pt) }

/-- One `summary[queue_type]` entry, lines 88-106. -/
structure StatSummary where
  count : ℕ
  latency : LatStats
  processing_time : ProcStats
  success_rate : ℚ
  successful_count : ℕ
  failed_count : ℕ
deriving DecidableEq, Repr

/-- Build the summary of one group (lines 88-106). -/
def summarize (g : GroupAcc) : StatSummary :=
  { count := g.count
    latency := latencyStats g.latencies
    processing_time := procStats g.processing_times
    success_rate := pyRound 4 ((g.successful : ℚ) / (g.count : ℚ))
    successful_count := g.successful
    failed_count := g.failed }

/-- Embedding of `calculate_statistics` (lines 54-108): group, then
summarize each group, skipping zero-count groups (line 82's
`continue`), preserving dict iteration order. -/
def calculate_statistics (metrics : List Metric) : List (String × StatSummary) :=
  (groupFold metrics).filterMap fun p =>
    if p.2.count = 0 then none else some (p.1, summarize p.2)

/-- Sort key of the response's message list (line 144):
`x.get('timestamp_received', '')`. -/
def tsKey (m : Metric) : String := m.timestamp_received.getD ""

/-- Embedding of `sorted(all_metrics, key=..., reverse=True)` (lines
142-146): Python's stable descending sort, i.e. the stable sort that
places `a` before `b` whenever `tsKey b ≤ tsKey a`, embedded as
insertion sort with that relation. -/
def pySortDesc (ms : List Metric) : List Metric :=
  List.insertionSort (fun a b => tsKey b ≤ tsKey a) ms

/-- Python's slice `l[:limit]` for an integer `limit`, including the
negative-index convention. -/
def pyTake (limit : ℤ) (l : List Metric) : List Metric :=
  if 0 ≤ limit then l.take limit.toNat
  else l.take ((l.length : ℤ) + limit).toNat

/-- The whitespace characters Python's `int` strips from a string
argument: `\t\n\v\f\r` (0x09-0x0D), space, NEL (0x85), NBSP (0xA0),
and the Unicode space characters 0x1680, 0x2000-0x200A, 0x2028,
0x2029, 0x202F, 0x205F and 0x3000 (the set determined empirically
against CPython; the 0x1C-0x1F separators are notably not
stripped). -/
def isPySpace (c : Char) : Bool :=
  (0x09 ≤ c.toNat && c.toNat ≤ 0x0D) || c.toNat == 0x20 ||
  c.toNat == 0x85 || c.toNat == 0xA0 || c.toNat == 0x1680 ||
  (0x2000 ≤ c.toNat && c.toNat ≤ 0x200A) || c.toNat == 0x2028 || c.toNat == 0x2029 ||
  c.toNat == 0x202F || c.toNat == 0x205F || c.toNat == 0x3000

/-- Continuation of Python's base-10 digit grammar after one leading
digit has been consumed into `acc`: the rest may continue with a
digit, or with a single underscore that must be followed by a digit
(PEP 515 grouping: no trailing, doubled, or non-digit-adjacent
underscore); anything else fails. -/
def underscoreDigits : ℕ → List Char → Option ℕ
  | acc, [] => some acc
  | acc, '_' :: rest =>
    match rest with
    | [] => none
    | d :: rest2 =>
      if d.isDigit then underscoreDigits (acc * 10 + (d.toNat - 48)) rest2 else none
  | acc, d :: rest =>
    if d.isDigit then underscoreDigits (acc * 10 + (d.toNat - 48)) rest else none

/-- True when every character of the string is ASCII.  On ASCII
strings `pyParseInt` below agrees with Python's `int` exactly, in
both directions. -/
def isAsciiString (s : String) : Bool :=
  s.toList.all fun c => c.toNat < 128

/-- Embedding of Python's `int(s)` on a string: strip surrounding
whitespace (the full `Py_UNICODE_ISSPACE` set), allow one sign, then
require a non-empty run of decimal digits with PEP 515 single
underscores permitted strictly between digits; anything else raises
`ValueError`, modelled as `none`.  The one divergence from CPython is
deliberate: Unicode decimal digits beyond ASCII (e.g. Arabic-Indic
digits) also parse in Python but are not modelled, so statements that
rely on `none` meaning `int()` raises are made for ASCII inputs
(`isAsciiString`), where the two functions coincide exactly. -/
def pyParseInt (s : String) : Option ℤ :=
  let t := ((s.toList.dropWhile isPySpace).reverse.dropWhile isPySpace).reverse
  match t with
  | [] => none
  | c :: rest =>
    let neg := c = '-'
    let ds := if c = '-' || c = '+' then rest else c :: rest
    match ds with
    | [] => none
    | d :: ds2 =>
      if d.isDigit then
        match underscoreDigits (d.toNat - 48) ds2 with
        | some v => some (if neg then -(v : ℤ) else (v : ℤ))
        | none => none
      else none

/-- Python's `str.lower()`, per character (the inputs here are ASCII
query-parameter values). -/
def pyLower (s : String) : String :=
  String.mk (s.toList.map Char.toLower)

/-- The effective limit of one Aggregator request:
`int(query_params.get('limit', 100))` (line 151).  An absent parameter
uses the integer default `100`; a present parameter goes through the
unguarded `int` conversion, whose failure propagates as an exception. -/
def limitOf (lp : Option String) : Option ℤ :=
  match lp with
  | none => some 100
  | some s => pyParseInt s

/-- The JSON body of a successful comparison response.  The code's
`timestamp` field (a fresh `utcnow` reading, present only on the
non-empty branch) is environment input, not a function of the metric
set, and is left out of the comparison body model. -/
structure CmpBody where
  message : Option String
  total_messages : ℕ
  statistics : List (String × StatSummary)
  messages : Option (List Metric)
deriving DecidableEq, Repr

/-- Outcome of the comparison handler: a 200 response with a body, or
the catch-all 500 response of lines 175-187. -/
inductive CmpOutcome where
  | success (body : CmpBody)
  | internalError
deriving DecidableEq, Repr

/-- HTTP status code of a comparison outcome. -/
def CmpOutcome.statusCode : CmpOutcome → ℕ
  | .success _ => 200
  | .internalError => 500

/-- Embedding of the comparison `lambda_handler` (lines 111-187),
taking as input the metric set fetched from S3 and the two query
parameters.  An empty fetch returns the fixed empty-set body (lines
123-136) before any query parameter is touched; otherwise statistics
are computed, records sorted by recency, and the `details`/`limit`
parameters read — an unparseable `limit` raises inside the `try` and
is converted to the 500 response by the top-level handler. -/
def comparison_handler (metrics : List Metric) (details_param limit_param : Option String) :
    CmpOutcome :=
  if metrics.isEmpty then
    .success { message := some "No metrics found", total_messages := 0,
               statistics := [], messages := some [] }
  else
    let statistics := calculate_statistics metrics
    let sorted_metrics := pySortDesc metrics
    let include_details := pyLower (details_param.getD "false") = "true"
    match limitOf limit_param with
    | none => .internalError
    | some limit =>
      if include_details then
        .success { message := none, total_messages := metrics.length,
                   statistics := statistics,
                   messages := some (pyTake limit sorted_metrics) }
      else
        .success { message := some "Add ?details=true to see individual messages",
                   total_messages := metrics.length,
                   statistics := statistics, messages := none }

/-! ## Consumers (`consumer-sqs/lambda_function.py`,
`consumer-rabbitmq/lambda_function.py`) -/

/-- A parsed message body, the fields both consumers read from
`json.loads(...)` via `.get`. -/
structure MsgBody where
  message_id : Option String
  timestamp_sent : TsInput
  passenger_name : Option String
  current_address : Option String
  destination : Option String
deriving DecidableEq, Repr

/-- The metrics dict both consumers build and persist (SQS lines
97-111, RabbitMQ lines 124-137).  The transport-specific correlation
fields differ between the two and are optional here. -/
structure MetricRecord where
  message_id : String
  queue_type : String
  timestamp_sent : TsInput
  timestamp_received : ℚ
  timestamp_processed : ℚ
  latency_ms : ℚ
  processing_time_ms : ℚ
  status : String
  passenger_name : String
  current_address : String
  destination : String
  delivery_tag : Option ℕ
  sqs_message_id : Option String
  receipt_handle : Option String
deriving DecidableEq, Repr

/-- One SQS-delivered record together with its injected environment:
`parsed` is the outcome of `json.loads(record['body'])` plus the
`.get` accesses (`none` when any of that raises, e.g. malformed JSON
or a non-dict body), `recv`/`proc` are the two `utcnow` readings,
`sim_success`/`sim_time_ms` the draw of `simulate_processing`, and
`store_ok` whether the S3 put in `store_metrics_to_s3` succeeds. -/
structure SqsRecord where
  parsed : Option MsgBody
  recv : ℚ
  proc : ℚ
  sim_success : Bool
  sim_time_ms : ℚ
  store_ok : Bool
  sqs_message_id : Option String
  receipt_handle : Option String
deriving DecidableEq, Repr

/-- The metrics dict built for one SQS record (lines 97-111). -/
def sqsBuildMetrics (r : SqsRecord) (b : MsgBody) : MetricRecord :=
  { message_id := b.message_id.getD "unknown"
    queue_type := "sqs"
    timestamp_sent := b.timestamp_sent
    timestamp_received := r.recv
    timestamp_processed := r.proc
    latency_ms := pyRound 2 (calculate_latency b.timestamp_sent (.valid r.recv))
    processing_time_ms := pyRound 2 r.sim_time_ms
    status := if r.sim_success then "successful" else "failed"
    passenger_name := b.passenger_name.getD "N/A"
    current_address := b.current_address.getD "N/A"
    destination := b.destination.getD "N/A"
    delivery_tag := none
    sqs_message_id := r.sqs_message_id
    receipt_handle := r.receipt_handle }

/-- Result dict of the SQS `lambda_handler` (lines 126-131). -/
structure SqsResult where
  statusCode : ℕ
  processed : ℕ
  failed : ℕ
  total : ℕ
deriving DecidableEq, Repr

/-- One iteration of the SQS batch loop (lines 78-123): a record whose
body fails to parse raises inside the `try` and is counted failed; a
parsed record is counted processed when its store attempt succeeds and
failed otherwise. -/
def sqsProcessRecord (acc : ℕ × ℕ) (r : SqsRecord) : ℕ × ℕ :=
  match r.parsed with
  | none => (acc.1, acc.2 + 1)
  | some _ => if r.store_ok then (acc.1 + 1, acc.2) else (acc.1, acc.2 + 1)

/-- Embedding of the SQS `lambda_handler` (lines 66-134).  Every
per-record exception is caught by the per-record `try`, so the handler
itself is total and always returns the summary dict. -/
def sqs_lambda_handler (records : List SqsRecord) : SqsResult :=
  let pf := records.foldl sqsProcessRecord (0, 0)
  { statusCode := 200, processed := pf.1, failed := pf.2, total := records.length }

/-- One message delivered by the broker in a poll, with its injected
environment, as for `SqsRecord`; `delivery_tag` is the ack handle. -/
structure BrokerMsg where
  delivery_tag : ℕ
  parsed : Option MsgBody
  recv : ℚ
  proc : ℚ
  sim_success : Bool
  sim_time_ms : ℚ
  store_ok : Bool
deriving DecidableEq, Repr

/-- The metrics dict built for one broker message (lines 124-137). -/
def rmqBuildMetrics (m : BrokerMsg) (b : MsgBody) : MetricRecord :=
  { message_id := b.message_id.getD "unknown"
    queue_type := "rabbitmq"
    timestamp_sent := b.timestamp_sent
    timestamp_received := m.recv
    timestamp_processed := m.proc
    latency_ms := pyRound 2 (calculate_latency b.timestamp_sent (.valid m.recv))
    processing_time_ms := pyRound 2 m.sim_time_ms
    status := if m.sim_success then "successful" else "failed"
    passenger_name := b.passenger_name.getD "N/A"
    current_address := b.current_address.getD "N/A"
    destination := b.destination.getD "N/A"
    delivery_tag := some m.delivery_tag
    sqs_message_id := none
    receipt_handle := none }

/-- A channel operation issued during the poll loop. -/
inductive QAction where
  | ack (delivery_tag : ℕ)
  | nack (delivery_tag : ℕ) (requeue : Bool)
deriving DecidableEq, Repr

/-- The poll loop of `consume_messages_from_rabbitmq` (lines 99-159),
returning the `processed_messages` list and the sequence of channel
acks/nacks in issue order.  Per the code: a message whose parse or
processing raises is nacked with requeue and does not bump
`messages_consumed`; a parsed message is acked and appended to the
processed list when its store succeeds, nacked with requeue otherwise,
and bumps `messages_consumed`, breaking the loop once the bump reaches
`max_messages`.  An exhausted message list models the inactivity
timeout ending the loop cleanly. -/
def consumeGo : List BrokerMsg → ℕ → ℕ → List MetricRecord × List QAction
  | [], _, _ => ([], [])
  | m :: rest, consumed, max_messages =>
    match m.parsed with
    | none =>
      let r := consumeGo rest consumed max_messages
      (r.1, QAction.nack m.delivery_tag true :: r.2)
    | some b =>
      let record := rmqBuildMetrics m b
      if m.store_ok then
        if max_messages ≤ consumed + 1 then
          ([record], [QAction.ack m.delivery_tag])
        else
          let r := consumeGo rest (consumed + 1) max_messages
          (record :: r.1, QAction.ack m.delivery_tag :: r.2)
      else
        if max_messages ≤ consumed + 1 then
          ([], [QAction.nack m.delivery_tag true])
        else
          let r := consumeGo rest (consumed + 1) max_messages
          (r.1, QAction.nack m.delivery_tag true :: r.2)

/-- Embedding of `consume_messages_from_rabbitmq` (lines 73-169) after
a successful connection, over the sequence of messages the broker
delivers before the inactivity timeout. -/
def consume_messages_from_rabbitmq (msgs : List BrokerMsg) (max_messages : ℕ) :
    List MetricRecord × List QAction :=
  consumeGo msgs 0 max_messages

/-! ## Producer (`producer/lambda_function.py`) -/

/-- A scalar JSON value as it can appear as a field of the request
body.  Arrays and objects as field values are omitted; only a value's
Python truthiness is consumed by validation, and the scalar cases
already cover every truthiness outcome. -/
inductive JVal where
  | jstr (s : String)
  | jnum (q : ℚ)
  | jbool (b : Bool)
  | jnull
deriving DecidableEq, Repr

/-- Python truthiness of a scalar JSON value (`not body[field]`). -/
def JVal.truthy : JVal → Bool
  | .jstr s => !s.isEmpty
  | .jnum q => q != 0
  | .jbool b => b
  | .jnull => false

/-- The fixed field order of `required_fields` (line 95). -/
def required_fields : List String :=
  ["passenger_name", "current_address", "destination"]

/-- Truthiness of one body field: `field in body and body[field]` is
truthy.  The body is the parsed JSON object, an insertion-ordered
association list with unique keys. -/
def fieldTruthy (body : List (String × JVal)) (f : String) : Bool :=
  match body.lookup f with
  | none => false
  | some v => v.truthy

/-- The first required field that is absent or falsy, in the fixed
order of `required_fields`. -/
def firstMissing (body : List (String × JVal)) : Option String :=
  required_fields.find? fun f => !fieldTruthy body f

/-- Embedding of `validate_request_body` (lines 93-104): an empty
(falsy) body dict yields `"Request body is empty"`; otherwise the
first absent-or-falsy required field names the error; a body with all
three fields truthy validates. -/
def validate_request_body (body : List (String × JVal)) : Bool × Option String :=
  if body.isEmpty then (false, some "Request body is empty")
  else
    match firstMissing body with
    | some f => (false, some ("Missing required field: " ++ f))
    | none => (true, none)

/-- Response of the producer handler: status code, the `error` string
of an error body if any, and whether a send to a queue was attempted
(the claim-relevant observable of `send_to_sqs`/`send_to_rabbitmq`). -/
structure ProdResult where
  statusCode : ℕ
  error : Option String
  sent : Bool
deriving DecidableEq, Repr

/-- Embedding of the producer `lambda_handler` (lines 107-221).
Inputs: the `queue` query parameter (already extracted; `none` covers
both a missing parameter and a null `queryStringParameters`), the
parse outcome of `json.loads(event.get('body', '{}'))` (`none` for a
`JSONDecodeError`, handled by the dedicated 400 branch), and the
injected outcome of the selected queue send.  Selector check precedes
body parsing, which precedes validation, which precedes any send. -/
def producer_handler (queue_param : Option String)
    (body_json : Option (List (String × JVal))) (send_ok : Bool) (send_err : String) :
    ProdResult :=
  let queue_type := pyLower (queue_param.getD "sqs")
  if ¬(queue_type = "sqs" ∨ queue_type = "rabbitmq") then
    { statusCode := 400, error := some "Invalid queue parameter. Use \"sqs\" or \"rabbitmq\"",
      sent := false }
  else
    match body_json with
    | none => { statusCode := 400, error := some "Invalid JSON in request body", sent := false }
    | some body =>
      match validate_request_body body with
      | (false, msg) => { statusCode := 400, error := msg, sent := false }
      | (true, _) =>
        if send_ok then { statusCode := 200, error := none, sent := true }
        else { statusCode := 500,
               error := some ("Failed to queue message: " ++ send_err), sent := true }

/-! ## Concrete sample inputs and claim-level predicates -/

/-- Concrete sample inputs reused by several witnesses. -/
def okBody : MsgBody :=
  { message_id := some "m-1", timestamp_sent := .valid 0, passenger_name := some "Ada",
    current_address := some "A St", destination := some "B St" }

/-- A body whose `timestamp_sent` is malformed. -/
def malBody : MsgBody :=
  { message_id := none, timestamp_sent := .malformed, passenger_name := none,
    current_address := none, destination := none }

/-- A concrete SQS record carrying `okBody`, received at time 5. -/
def okSqs : SqsRecord :=
  { parsed := some okBody, recv := 5, proc := 6, sim_success := true, sim_time_ms := 250,
    store_ok := true, sqs_message_id := some "sqs-1", receipt_handle := some "rh-1" }

/-- A concrete broker message carrying `okBody`, received at time 5. -/
def okRmq : BrokerMsg :=
  { delivery_tag := 7, parsed := some okBody, recv := 5, proc := 6, sim_success := true,
    sim_time_ms := 250, store_ok := true }

/-- A concrete metric record as the Aggregator fetches it. -/
def sampleMetric : Metric :=
  { queue_type := some "sqs", latency_ms := some 10, processing_time_ms := some 5,
    status := some "successful", timestamp_received := some "2024-01-01T00:00:00Z" }

/-- The record-level failure predicate of the push-mode batch: a
record fails when its body does not parse or its store attempt fails. -/
def sqsRecordFails (r : SqsRecord) : Bool := !(r.parsed.isSome && r.store_ok)

/-- A message body whose well-formed `timestamp_sent` (time 1) is
later than the receive time of the records below (time 0). -/
def lateBody : MsgBody :=
  { message_id := some "m-late", timestamp_sent := .valid 1, passenger_name := some "Eve",
    current_address := some "C St", destination := some "D St" }

/-- An SQS record that receives `lateBody` at time 0. -/
def lateSqs : SqsRecord :=
  { parsed := some lateBody, recv := 0, proc := 1, sim_success := true, sim_time_ms := 100,
    store_ok := true, sqs_message_id := some "sqs-2", receipt_handle := some "rh-2" }

/-- A broker message that receives `lateBody` at time 0. -/
def lateRmq : BrokerMsg :=
  { delivery_tag := 8, parsed := some lateBody, recv := 0, proc := 1, sim_success := true,
    sim_time_ms := 100, store_ok := true }

/-- A broker message carrying `okBody` with a chosen delivery tag and
store outcome. -/
def pollMsg (tag : ℕ) (ok : Bool) : BrokerMsg :=
  { delivery_tag := tag, parsed := some okBody, recv := 5, proc := 6, sim_success := true,
    sim_time_ms := 250, store_ok := ok }

/-- Five delivered messages with a persistence failure injected for
exactly the third. -/
def fivePoll : List BrokerMsg :=
  [pollMsg 1 true, pollMsg 2 true, pollMsg 3 false, pollMsg 4 true, pollMsg 5 true]

/-- Sum of the per-group counts of a grouping accumulator. -/
def sumCounts (l : List (String × GroupAcc)) : ℕ :=
  (l.map fun p => p.2.count).sum

/-- The combined per-group invariant used for C9: the success/failure
split is exact and every materialized group has seen a record. -/
def groupInv (g : GroupAcc) : Prop :=
  g.successful + g.failed = g.count ∧ 1 ≤ g.count

/-- A fetched record with every field absent: grouped under
`"unknown"` and counted as failed. -/
def unknownMetric : Metric :=
  { queue_type := none, latency_ms := none, processing_time_ms := none,
    status := none, timestamp_received := none }

/-- The group accumulated from `unknownMetric` alone. -/
def gUnknown : GroupAcc :=
  { count := 1, latencies := [0], processing_times := [0], successful := 0, failed := 1 }

/-! ## Shared helper lemmas -/

/-- Round-half-even of a non-negative rational is non-negative. -/
theorem roundHalfEven_nonneg (q : ℚ) (h : 0 ≤ q) : 0 ≤ roundHalfEven q := by
  have hf : (0 : ℤ) ≤ ⌊q⌋ := Int.floor_nonneg.mpr h
  simp only [roundHalfEven]
  split_ifs <;> omega

/-- Python rounding of a non-negative rational is non-negative. -/
theorem pyRound_nonneg (d : ℕ) (q : ℚ) (h : 0 ≤ q) : 0 ≤ pyRound d q := by
  unfold pyRound
  have h0 : (0 : ℚ) ≤ q * 10 ^ d := by positivity
  have h1 : (0 : ℚ) ≤ (roundHalfEven (q * 10 ^ d) : ℚ) := by
    exact_mod_cast roundHalfEven_nonneg _ h0
  positivity

/-! ## Claim theorems -/

/-- C1: for a non-empty latency group the Aggregator sorts the values
ascending and reads the median at index `⌊L/2⌋` and the p-th
percentile at index `⌊L·p⌋`; a single-element group has min = median =
p95 = p99; and the spec's concrete examples `[10,20,30,40,50]` and
`[42]` evaluate as stated. -/
theorem percentile_convention (ls ls1 : List ℚ) (h : ls ≠ []) (h1 : ls1.length = 1) :
    (List.Sorted (· ≤ ·) (List.insertionSort (· ≤ ·) ls) ∧
      (List.insertionSort (· ≤ ·) ls).Perm ls ∧
      (latencyStats ls).median_ms
        = pyRound 2 ((List.insertionSort (· ≤ ·) ls).getD (ls.length / 2) 0) ∧
      (latencyStats ls).p95_ms
        = pyRound 2 ((List.insertionSort (· ≤ ·) ls).getD (ls.length * 95 / 100) 0) ∧
      (latencyStats ls).p99_ms
        = pyRound 2 ((List.insertionSort (· ≤ ·) ls).getD (ls.length * 99 / 100) 0)) ∧
    ((latencyStats ls1).min_ms = (latencyStats ls1).median_ms ∧
      (latencyStats ls1).p95_ms = (latencyStats ls1).median_ms ∧
      (latencyStats ls1).p99_ms = (latencyStats ls1).median_ms) ∧
    ((latencyStats [10, 20, 30, 40, 50]).median_ms = 30 ∧
      (latencyStats [10, 20, 30, 40, 50]).p95_ms = 50 ∧
      (latencyStats [10, 20, 30, 40, 50]).p99_ms = 50 ∧
      (latencyStats [42]).min_ms = 42 ∧ (latencyStats [42]).median_ms = 42 ∧
      (latencyStats [42]).p95_ms = 42 ∧ (latencyStats [42]).p99_ms = 42) := by
  have hlen : ∀ l : List ℚ, (List.insertionSort (· ≤ ·) l).length = l.length :=
    fun l => List.length_insertionSort _ l
  refine ⟨⟨List.sorted_insertionSort _ ls, List.perm_insertionSort _ ls, ?_, ?_, ?_⟩, ?_, ?_⟩
  · simp [latencyStats, hlen]
  · by_cases hL : 1 < ls.length
    · simp [latencyStats, hlen, hL]
    · have h0 : ls.length = 1 := by
        cases hl : ls.length with
        | zero => exact absurd (List.length_eq_zero.mp hl) h
        | succ n => omega
      simp [latencyStats, hlen, h0]
  · by_cases hL : 1 < ls.length
    · simp [latencyStats, hlen, hL]
    · have h0 : ls.length = 1 := by
        cases hl : ls.length with
        | zero => exact absurd (List.length_eq_zero.mp hl) h
        | succ n => omega
      simp [latencyStats, hlen, h0]
  · obtain ⟨a, rfl⟩ := List.length_eq_one.mp h1
    refine ⟨?_, ?_, ?_⟩ <;> simp [latencyStats, listMin]
  · refine ⟨?_, ?_, ?_, ?_, ?_, ?_, ?_⟩ <;>
      norm_num [latencyStats, pyRound, roundHalfEven, listSum, listMin, listMax, List.getD]

/-- Witness for `percentile_convention` at the spec's own examples. -/
theorem percentile_convention_witness :
    ([10, 20, 30, 40, 50] : List ℚ) ≠ [] ∧ ([42] : List ℚ).length = 1 ∧
    ((latencyStats [10, 20, 30, 40, 50]).median_ms = 30 ∧
      (latencyStats [10, 20, 30, 40, 50]).p95_ms = 50 ∧
      (latencyStats [10, 20, 30, 40, 50]).p99_ms = 50 ∧
      (latencyStats [42]).min_ms = 42 ∧ (latencyStats [42]).median_ms = 42 ∧
      (latencyStats [42]).p95_ms = 42 ∧ (latencyStats [42]).p99_ms = 42) ∧
    ((latencyStats [42]).min_ms = (latencyStats [42]).median_ms ∧
      (latencyStats [42]).p95_ms = (latencyStats [42]).median_ms ∧
      (latencyStats [42]).p99_ms = (latencyStats [42]).median_ms) :=
  ⟨by decide, by decide,
    (percentile_convention [10, 20, 30, 40, 50] [42] (by decide) (by decide)).2.2,
    (percentile_convention [10, 20, 30, 40, 50] [42] (by decide) (by decide)).2.1⟩

/-- The SQS batch fold counts one success or one failure per record. -/
theorem sqs_foldl_counts (l : List SqsRecord) (p f : ℕ) :
    l.foldl sqsProcessRecord (p, f) =
      (p + l.countP (fun r => !sqsRecordFails r), f + l.countP sqsRecordFails) := by
  induction l generalizing p f with
  | nil => simp
  | cons r rest ih =>
    rcases hp : r.parsed with _ | b
    · have hf : sqsRecordFails r = true := by simp [sqsRecordFails, hp]
      simp only [List.foldl_cons, sqsProcessRecord, hp, ih, List.countP_cons, hf]
      simp
      omega
    · rcases hs : r.store_ok with _ | _
      · have hf : sqsRecordFails r = true := by simp [sqsRecordFails, hp, hs]
        simp only [List.foldl_cons, sqsProcessRecord, hp, hs, ih, List.countP_cons, hf]
        simp
        omega
      · have hf : sqsRecordFails r = false := by simp [sqsRecordFails, hp, hs]
        simp only [List.foldl_cons, sqsProcessRecord, hp, hs, ih, List.countP_cons, hf]
        simp
        omega

/-- C4: the push-mode batch handler returns `processed = N - K`,
`failed = K`, `total = N` where `K` counts the records that fail
(unparseable body or failed persistence), so `processed + failed =
total`; the handler is a total function and always answers with status
200 — no exception escapes it. -/
theorem push_mode_batch_accounting (records : List SqsRecord) :
    (sqs_lambda_handler records).processed
        = records.length - records.countP sqsRecordFails ∧
    (sqs_lambda_handler records).failed = records.countP sqsRecordFails ∧
    (sqs_lambda_handler records).total = records.length ∧
    (sqs_lambda_handler records).processed + (sqs_lambda_handler records).failed
        = (sqs_lambda_handler records).total ∧
    (sqs_lambda_handler records).statusCode = 200 := by
  have hc : records.countP (fun r => !sqsRecordFails r) + records.countP sqsRecordFails
      = records.length := by
    induction records with
    | nil => simp
    | cons r rest ih =>
      by_cases h : sqsRecordFails r = true <;> simp [List.countP_cons, h] <;> omega
  have hfold := sqs_foldl_counts records 0 0
  refine ⟨?_, ?_, rfl, ?_, rfl⟩
  · show (records.foldl sqsProcessRecord (0, 0)).1 = _
    rw [hfold]
    simp only [Nat.zero_add]
    omega
  · show (records.foldl sqsProcessRecord (0, 0)).2 = _
    rw [hfold]
    simp only [Nat.zero_add]
  · show (records.foldl sqsProcessRecord (0, 0)).1 + (records.foldl sqsProcessRecord (0, 0)).2
        = records.length
    rw [hfold]
    simp only [Nat.zero_add]
    omega

/-- C8: on an empty fetched metric set the Aggregator answers 200 with
`total_messages = 0`, empty statistics and an empty message list, for
every combination of query parameters, and any two invocations on the
empty set give identical results. -/
theorem aggregator_empty_idempotent (d1 l1 d2 l2 : Option String) :
    comparison_handler [] d1 l1 = CmpOutcome.success
      { message := some "No metrics found", total_messages := 0,
        statistics := [], messages := some [] } ∧
    (comparison_handler [] d1 l1).statusCode = 200 ∧
    comparison_handler [] d1 l1 = comparison_handler [] d2 l2 :=
  ⟨rfl, rfl, rfl⟩

/-- C10 counterexample: with an unparseable `limit` but an empty
fetched metric set, the handler returns the 200 empty-set response,
not an internal error — the empty-set fast path precedes the parse. -/
theorem bad_limit_empty_store_counterexample :
    pyParseInt "abc" = none ∧
    comparison_handler [] none (some "abc") ≠ CmpOutcome.internalError := by
  exact ⟨rfl, by decide⟩

/-- C10 (amended): when the fetched metric set is non-empty, a present
ASCII `limit` parameter that `int()` cannot parse (on ASCII strings
`pyParseInt` agrees with Python's `int` exactly) makes the handler
return the 500-style internal-error response — no fallback to the
default 100 and no 400. -/
theorem bad_limit_internal_error (ms : List Metric) (d : Option String) (s : String)
    (hms : ms ≠ []) (hascii : isAsciiString s = true) (hs : pyParseInt s = none) :
    comparison_handler ms d (some s) = CmpOutcome.internalError := by
  obtain ⟨m, rest, rfl⟩ := List.exists_cons_of_ne_nil hms
  simp [comparison_handler, limitOf, hs]

/-- Witness for `bad_limit_internal_error`. -/
theorem bad_limit_internal_error_witness :
    [sampleMetric] ≠ ([] : List Metric) ∧ isAsciiString "abc" = true ∧
    pyParseInt "abc" = none ∧
    comparison_handler [sampleMetric] none (some "abc") = CmpOutcome.internalError :=
  ⟨by simp, by decide, rfl,
    bad_limit_internal_error [sampleMetric] none "abc" (by simp) (by decide) rfl⟩

/-- C5: the latency computation is a total function (every parse
exception is caught): on two well-formed timestamps `t1 ≤ t2` it
returns `(t2 - t1)` milliseconds, the stored `MetricRecord` carries
that value rounded to 2 decimals, and any malformed operand yields 0
instead of an exception. -/
theorem latency_computation_spec (t1 t2 : ℚ) (r : SqsRecord) (m : BrokerMsg) (b : MsgBody)
    (h : t1 ≤ t2) (hr : r.recv = t2) (hm : m.recv = t2)
    (hb : b.timestamp_sent = TsInput.valid t1) :
    calculate_latency (TsInput.valid t1) (TsInput.valid t2) = (t2 - t1) * 1000 ∧
    (sqsBuildMetrics r b).latency_ms = pyRound 2 ((t2 - t1) * 1000) ∧
    (rmqBuildMetrics m b).latency_ms = pyRound 2 ((t2 - t1) * 1000) ∧
    calculate_latency TsInput.malformed (TsInput.valid t2) = 0 ∧
    calculate_latency (TsInput.valid t1) TsInput.malformed = 0 ∧
    calculate_latency TsInput.malformed TsInput.malformed = 0 := by
  refine ⟨rfl, ?_, ?_, rfl, rfl, rfl⟩
  · simp [sqsBuildMetrics, calculate_latency, TsInput.parseTs, hb, hr]
  · simp [rmqBuildMetrics, calculate_latency, TsInput.parseTs, hb, hm]

/-- Witness for `latency_computation_spec` at `t1 = 0`, `t2 = 5`. -/
theorem latency_computation_spec_witness :
    (0 : ℚ) ≤ 5 ∧ okSqs.recv = 5 ∧ okRmq.recv = 5 ∧
    okBody.timestamp_sent = TsInput.valid 0 ∧
    (calculate_latency (TsInput.valid 0) (TsInput.valid 5) = (5 - 0) * 1000 ∧
      (sqsBuildMetrics okSqs okBody).latency_ms = pyRound 2 ((5 - 0) * 1000) ∧
      (rmqBuildMetrics okRmq okBody).latency_ms = pyRound 2 ((5 - 0) * 1000) ∧
      calculate_latency TsInput.malformed (TsInput.valid 5) = 0 ∧
      calculate_latency (TsInput.valid 0) TsInput.malformed = 0 ∧
      calculate_latency TsInput.malformed TsInput.malformed = 0) :=
  ⟨by decide, rfl, rfl, rfl,
    latency_computation_spec 0 5 okSqs okRmq okBody (by decide) rfl rfl rfl⟩

/-- C3 counterexample: both consumers' metric builders produce a
strictly negative `latency_ms` when a well-formed `timestamp_sent`
(time 1 s) is later than `timestamp_received` (time 0 s) — the code
subtracts without clamping, refuting non-negativity for reversed
well-formed timestamps. -/
theorem latency_negative_counterexample :
    (sqsBuildMetrics lateSqs lateBody).latency_ms = -1000 ∧
    (rmqBuildMetrics lateRmq lateBody).latency_ms = -1000 ∧
    ¬(0 ≤ (sqsBuildMetrics lateSqs lateBody).latency_ms) := by
  refine ⟨?_, ?_, ?_⟩ <;>
    norm_num [sqsBuildMetrics, rmqBuildMetrics, lateSqs, lateRmq, lateBody,
      calculate_latency, TsInput.parseTs, pyRound, roundHalfEven]

/-- C3 (amended): `latency_ms` is non-negative whenever the
well-formed `timestamp_sent` is at or before `timestamp_received`,
and is 0 when `timestamp_sent` is malformed; for a well-formed
`timestamp_sent` later than `timestamp_received` it is negative (the
unamended claim fails there). -/
theorem latency_nonneg_amended (r : SqsRecord) (m : BrokerMsg) (b bmal : MsgBody) (s t : ℚ)
    (hb : b.timestamp_sent = TsInput.valid s) (hr : r.recv = t) (hm : m.recv = t)
    (hmal : bmal.timestamp_sent = TsInput.malformed) (hst : s ≤ t) :
    0 ≤ (sqsBuildMetrics r b).latency_ms ∧ 0 ≤ (rmqBuildMetrics m b).latency_ms ∧
    (sqsBuildMetrics r bmal).latency_ms = 0 ∧ (rmqBuildMetrics m bmal).latency_ms = 0 := by
  have hnn : (0 : ℚ) ≤ (t - s) * 1000 := by
    have : (0 : ℚ) ≤ t - s := by linarith
    positivity
  have hz : pyRound 2 (0 : ℚ) = 0 := by
    norm_num [pyRound, roundHalfEven]
  refine ⟨?_, ?_, ?_, ?_⟩
  · simpa [sqsBuildMetrics, calculate_latency, TsInput.parseTs, hb, hr]
      using pyRound_nonneg 2 _ hnn
  · simpa [rmqBuildMetrics, calculate_latency, TsInput.parseTs, hb, hm]
      using pyRound_nonneg 2 _ hnn
  · simpa [sqsBuildMetrics, calculate_latency, TsInput.parseTs, hmal] using hz
  · simpa [rmqBuildMetrics, calculate_latency, TsInput.parseTs, hmal] using hz

/-- Witness for `latency_nonneg_amended` with sent time 0 and receive
time 5. -/
theorem latency_nonneg_amended_witness :
    okBody.timestamp_sent = TsInput.valid 0 ∧ okSqs.recv = 5 ∧ okRmq.recv = 5 ∧
    malBody.timestamp_sent = TsInput.malformed ∧ (0 : ℚ) ≤ 5 ∧
    (0 ≤ (sqsBuildMetrics okSqs okBody).latency_ms ∧
      0 ≤ (rmqBuildMetrics okRmq okBody).latency_ms ∧
      (sqsBuildMetrics okSqs malBody).latency_ms = 0 ∧
      (rmqBuildMetrics okRmq malBody).latency_ms = 0) :=
  ⟨rfl, rfl, rfl, rfl, by decide,
    latency_nonneg_amended okSqs okRmq okBody malBody 0 5 rfl rfl rfl rfl (by decide)⟩

/-- C6 counterexample: an empty (falsy) request body is a body in
which all three required fields are absent, yet the producer's 400
response carries the error `"Request body is empty"`, which does not
name `passenger_name` — and no message is sent. -/
theorem producer_empty_body_counterexample :
    producer_handler (some "sqs") (some []) true ""
        = { statusCode := 400, error := some "Request body is empty", sent := false } ∧
    ("Request body is empty" : String) ≠ "Missing required field: " ++ "passenger_name" := by
  exact ⟨rfl, by decide⟩

/-- C6 (amended): for a parsed, non-empty body with a missing or
empty required field, the producer returns 400 naming the first such
field in the order passenger_name, current_address, destination, and
sends nothing; an empty body dict instead yields the fixed
`"Request body is empty"` error, again sending nothing; and a body
with all three fields present and non-empty passes validation. -/
theorem producer_validation_amended (qp : Option String) (body good : List (String × JVal))
    (send_ok : Bool) (send_err : String) (f : String)
    (hq : pyLower (qp.getD "sqs") = "sqs" ∨ pyLower (qp.getD "sqs") = "rabbitmq")
    (hne : body ≠ []) (hf : firstMissing body = some f)
    (hgne : good ≠ []) (hgood : firstMissing good = none) :
    producer_handler qp (some body) send_ok send_err
        = { statusCode := 400, error := some ("Missing required field: " ++ f),
            sent := false } ∧
    producer_handler qp (some []) send_ok send_err
        = { statusCode := 400, error := some "Request body is empty", sent := false } ∧
    validate_request_body good = (true, none) := by
  obtain ⟨x, xs, rfl⟩ := List.exists_cons_of_ne_nil hne
  obtain ⟨y, ys, rfl⟩ := List.exists_cons_of_ne_nil hgne
  refine ⟨?_, ?_, ?_⟩
  · unfold producer_handler
    rw [if_neg (not_not_intro hq)]
    simp [validate_request_body, hf]
  · unfold producer_handler
    rw [if_neg (not_not_intro hq)]
    rfl
  · simp [validate_request_body, hgood]

/-- Witness for `producer_validation_amended`: a body holding only a
phone number is missing `passenger_name` first; a full body passes. -/
theorem producer_validation_amended_witness :
    (pyLower ((some "sqs").getD "sqs") = "sqs" ∨
      pyLower ((some "sqs").getD "sqs") = "rabbitmq") ∧
    ([("phone", JVal.jstr "123")] : List (String × JVal)) ≠ [] ∧
    firstMissing [("phone", JVal.jstr "123")] = some "passenger_name" ∧
    ([("passenger_name", JVal.jstr "Ada"), ("current_address", JVal.jstr "A St"),
      ("destination", JVal.jstr "B St")] : List (String × JVal)) ≠ [] ∧
    firstMissing [("passenger_name", JVal.jstr "Ada"), ("current_address", JVal.jstr "A St"),
      ("destination", JVal.jstr "B St")] = none ∧
    (producer_handler (some "sqs") (some [("phone", JVal.jstr "123")]) true ""
        = { statusCode := 400, error := some ("Missing required field: " ++ "passenger_name"),
            sent := false } ∧
      producer_handler (some "sqs") (some []) true ""
        = { statusCode := 400, error := some "Request body is empty", sent := false } ∧
      validate_request_body [("passenger_name", JVal.jstr "Ada"),
        ("current_address", JVal.jstr "A St"), ("destination", JVal.jstr "B St")]
        = (true, none)) :=
  ⟨Or.inl rfl, by decide, rfl, by decide, rfl,
    producer_validation_amended (some "sqs") [("phone", JVal.jstr "123")]
      [("passenger_name", JVal.jstr "Ada"), ("current_address", JVal.jstr "A St"),
        ("destination", JVal.jstr "B St")] true "" "passenger_name"
      (Or.inl rfl) (by decide) rfl (by decide) rfl⟩

/-- Characterization of the poll loop when the delivered batch fits
within the `max_messages` budget: each message contributes exactly one
channel action (ack on store success, nack-with-requeue otherwise) and
the processed list collects exactly the stored records. -/
theorem consumeGo_spec (msgs : List BrokerMsg) (consumed max_messages : ℕ)
    (h : consumed + msgs.length ≤ max_messages) :
    consumeGo msgs consumed max_messages
      = (msgs.filterMap (fun m => m.parsed.bind fun b =>
            if m.store_ok then some (rmqBuildMetrics m b) else none),
         msgs.map (fun m => if m.parsed.isSome && m.store_ok then QAction.ack m.delivery_tag
            else QAction.nack m.delivery_tag true)) := by
  induction msgs generalizing consumed with
  | nil => simp [consumeGo]
  | cons m rest ih =>
    have hlen : consumed + rest.length + 1 ≤ max_messages := by
      simpa [List.length_cons, Nat.add_assoc] using h
    rcases hp : m.parsed with _ | b
    · have h' : consumed + rest.length ≤ max_messages := by omega
      simp only [consumeGo, hp, List.map_cons, List.filterMap_cons, ih consumed h']
      simp [hp]
    · rcases hs : m.store_ok with _ | _
      · by_cases hb : max_messages ≤ consumed + 1
        · have hrest : rest = [] := List.length_eq_zero.mp (by omega)
          subst hrest
          simp [consumeGo, hp, hs, hb]
        · simp only [consumeGo, hp, hs, if_neg hb, ih (consumed + 1) (by omega)]
          simp [hp, hs]
      · by_cases hb : max_messages ≤ consumed + 1
        · have hrest : rest = [] := List.length_eq_zero.mp (by omega)
          subst hrest
          simp [consumeGo, hp, hs, hb]
        · simp only [consumeGo, hp, hs, if_neg hb, ih (consumed + 1) (by omega)]
          simp [hp, hs]

/-- C2: in one poll invocation whose delivered batch fits the
`max_messages` budget, every message whose record persists is acked
and appended to the returned processed list, and every message whose
persistence fails (or whose body cannot be parsed) is nacked with
`requeue = true` and excluded from the processed list. -/
theorem pull_mode_ack_contract (msgs : List BrokerMsg) (max_messages : ℕ)
    (h : msgs.length ≤ max_messages) :
    (consume_messages_from_rabbitmq msgs max_messages).2
        = msgs.map (fun m => if m.parsed.isSome && m.store_ok then QAction.ack m.delivery_tag
            else QAction.nack m.delivery_tag true) ∧
    (consume_messages_from_rabbitmq msgs max_messages).1
        = msgs.filterMap (fun m => m.parsed.bind fun b =>
            if m.store_ok then some (rmqBuildMetrics m b) else none) := by
  have hgo := consumeGo_spec msgs 0 max_messages (by omega)
  exact ⟨by rw [consume_messages_from_rabbitmq, hgo], by rw [consume_messages_from_rabbitmq, hgo]⟩

/-- Witness for `pull_mode_ack_contract`: with a persistence failure
injected for exactly message 3 of five, exactly message 3 is nacked
(requeued), the other four are acked, and the processed list holds
exactly the four stored records. -/
theorem pull_mode_ack_contract_witness :
    fivePoll.length ≤ 10 ∧
    (consume_messages_from_rabbitmq fivePoll 10).2
        = [QAction.ack 1, QAction.ack 2, QAction.nack 3 true, QAction.ack 4, QAction.ack 5] ∧
    ((consume_messages_from_rabbitmq fivePoll 10).1.map fun r => r.delivery_tag)
        = [some 1, some 2, some 4, some 5] := by
  have h := pull_mode_ack_contract fivePoll 10 (by decide)
  refine ⟨by decide, ?_, ?_⟩
  · rw [h.1]; decide
  · rw [h.2]; decide

/-- C7: on a non-empty metric set with a well-formed (or absent,
defaulting to 100) non-negative `limit`: with `details=true` the
response carries a `messages` array equal to the first `limit` records
of the recency-sorted list — so at most `limit` records, sorted by
`timestamp_received` in descending string order — and with
`details=false` the `messages` array is replaced by the fixed hint
string, while `total_messages` and `statistics` are identical in the
two responses. -/
theorem aggregator_details_contract (ms : List Metric) (lp : Option String) (n : ℤ)
    (hms : ms ≠ []) (hn : limitOf lp = some n) (h0 : 0 ≤ n) :
    comparison_handler ms (some "true") lp
        = CmpOutcome.success
            { message := none, total_messages := ms.length,
              statistics := calculate_statistics ms,
              messages := some (pyTake n (pySortDesc ms)) } ∧
    (pyTake n (pySortDesc ms)).length ≤ n.toNat ∧
    List.Sorted (fun a b => tsKey b ≤ tsKey a) (pySortDesc ms) ∧
    (pySortDesc ms).Perm ms ∧
    comparison_handler ms (some "false") lp
        = CmpOutcome.success
            { message := some "Add ?details=true to see individual messages",
              total_messages := ms.length, statistics := calculate_statistics ms,
              messages := none } := by
  haveI htot : IsTotal Metric (fun a b => tsKey b ≤ tsKey a) :=
    ⟨fun a b => le_total (tsKey b) (tsKey a)⟩
  haveI htr : IsTrans Metric (fun a b => tsKey b ≤ tsKey a) :=
    ⟨fun _ _ _ hab hbc => le_trans hbc hab⟩
  obtain ⟨m, rest, rfl⟩ := List.exists_cons_of_ne_nil hms
  refine ⟨?_, ?_, ?_, ?_, ?_⟩
  · simp [comparison_handler, hn, show pyLower "true" = "true" from rfl]
  · rw [pyTake, if_pos h0]
    exact List.length_take_le _ _
  · exact List.sorted_insertionSort _ _
  · exact List.perm_insertionSort _ _
  · simp [comparison_handler, hn, show pyLower "false" = "false" from rfl]

/-- Witness for `aggregator_details_contract` on a one-record set with
the default limit. -/
theorem aggregator_details_contract_witness :
    ([sampleMetric] : List Metric) ≠ [] ∧ limitOf none = some 100 ∧ (0 : ℤ) ≤ 100 ∧
    (comparison_handler [sampleMetric] (some "true") none
        = CmpOutcome.success
            { message := none, total_messages := [sampleMetric].length,
              statistics := calculate_statistics [sampleMetric],
              messages := some (pyTake 100 (pySortDesc [sampleMetric])) } ∧
      (pyTake 100 (pySortDesc [sampleMetric])).length ≤ (100 : ℤ).toNat ∧
      List.Sorted (fun a b => tsKey b ≤ tsKey a) (pySortDesc [sampleMetric]) ∧
      (pySortDesc [sampleMetric]).Perm [sampleMetric] ∧
      comparison_handler [sampleMetric] (some "false") none
        = CmpOutcome.success
            { message := some "Add ?details=true to see individual messages",
              total_messages := [sampleMetric].length,
              statistics := calculate_statistics [sampleMetric], messages := none }) :=
  ⟨by simp, rfl, by decide,
    aggregator_details_contract [sampleMetric] none 100 (by simp) rfl (by decide)⟩

/-- Updating one key adds exactly one to the total count when the
update adds one to the touched group's count. -/
theorem updAssoc_sumCounts (l : List (String × GroupAcc)) (k : String)
    (f : GroupAcc → GroupAcc) (hf : ∀ g, (f g).count = g.count + 1) :
    sumCounts (updAssoc l k f) = sumCounts l + 1 := by
  induction l with
  | nil => simp [updAssoc, sumCounts, hf, emptyGroup]
  | cons p rest ih =>
    by_cases h : p.1 = k
    · simp [updAssoc, h, sumCounts, hf]
      omega
    · simp only [updAssoc]
      rw [if_neg (by simpa using h)]
      simp only [sumCounts, List.map_cons, List.sum_cons] at ih ⊢
      omega

/-- The update `updAssoc` preserves a per-group invariant that the update
establishes from any input group. -/
theorem updAssoc_forall (l : List (String × GroupAcc)) (k : String)
    (f : GroupAcc → GroupAcc) (I : GroupAcc → Prop)
    (hl : ∀ p ∈ l, I p.2) (hf0 : I (f emptyGroup)) (hf : ∀ g, I g → I (f g)) :
    ∀ p ∈ updAssoc l k f, I p.2 := by
  induction l with
  | nil =>
    intro p hp
    simp only [updAssoc, List.mem_singleton] at hp
    exact hp ▸ hf0
  | cons q rest ih =>
    intro p hp
    by_cases h : q.1 = k
    · simp only [updAssoc, h, if_pos rfl] at hp
      rcases List.mem_cons.mp hp with h1 | h1
      · exact h1 ▸ hf q.2 (hl q (List.mem_cons_self _ _))
      · exact hl p (List.mem_cons_of_mem _ h1)
    · simp only [updAssoc] at hp
      rw [if_neg (by simpa using h)] at hp
      rcases List.mem_cons.mp hp with h1 | h1
      · exact h1 ▸ hl q (List.mem_cons_self _ _)
      · exact ih (fun r hr => hl r (List.mem_cons_of_mem _ hr)) p h1

/-- The key just updated is among the keys afterwards. -/
theorem updAssoc_mem_key (l : List (String × GroupAcc)) (k : String)
    (f : GroupAcc → GroupAcc) : k ∈ (updAssoc l k f).map Prod.fst := by
  induction l with
  | nil => simp [updAssoc]
  | cons q rest ih =>
    by_cases h : q.1 = k
    · simp [updAssoc, h]
    · simp only [updAssoc]
      rw [if_neg (by simpa using h)]
      exact List.mem_cons_of_mem _ ih

/-- Existing keys survive an update. -/
theorem updAssoc_key_mono (l : List (String × GroupAcc)) (k k' : String)
    (f : GroupAcc → GroupAcc) (h : k' ∈ l.map Prod.fst) :
    k' ∈ (updAssoc l k f).map Prod.fst := by
  induction l with
  | nil => simp at h
  | cons q rest ih =>
    by_cases hq : q.1 = k
    · simpa [updAssoc, hq] using h
    · simp only [updAssoc]
      rw [if_neg (by simpa using hq)]
      simp only [List.map_cons, List.mem_cons] at h ⊢
      rcases h with h | h
      · exact Or.inl h
      · exact Or.inr (ih h)

/-- One grouping step adds exactly one record to the total count. -/
theorem groupStep_sumCounts (acc : List (String × GroupAcc)) (m : Metric) :
    sumCounts (groupStep acc m) = sumCounts acc + 1 :=
  updAssoc_sumCounts _ _ _ (fun g => rfl)

/-- The grouping fold counts every metric exactly once. -/
theorem groupFold_sumCounts (l : List Metric) (acc : List (String × GroupAcc)) :
    sumCounts (l.foldl groupStep acc) = sumCounts acc + l.length := by
  induction l generalizing acc with
  | nil => simp
  | cons m rest ih =>
    simp only [List.foldl_cons, ih, groupStep_sumCounts, List.length_cons]
    omega

/-- Every group the fold materializes satisfies the C9 invariant. -/
theorem groupFold_inv (l : List Metric) (acc : List (String × GroupAcc))
    (hacc : ∀ p ∈ acc, groupInv p.2) :
    ∀ p ∈ l.foldl groupStep acc, groupInv p.2 := by
  induction l generalizing acc with
  | nil => exact hacc
  | cons m rest ih =>
    refine ih _ ?_
    refine updAssoc_forall _ _ _ _ hacc ?_ ?_
    · by_cases h : m.status = some "successful" <;> simp [groupInv, emptyGroup, h]
    · intro g hg
      obtain ⟨h1, h2⟩ := hg
      constructor
      · by_cases h : m.status = some "successful" <;> simp [h] <;> omega
      · exact Nat.le_add_left 1 g.count

/-- Keys already materialized survive the rest of the fold. -/
theorem groupFold_key_mono (l : List Metric) (acc : List (String × GroupAcc)) (k : String)
    (h : k ∈ acc.map Prod.fst) : k ∈ (l.foldl groupStep acc).map Prod.fst := by
  induction l generalizing acc with
  | nil => exact h
  | cons m rest ih => exact ih _ (updAssoc_key_mono _ _ _ _ h)

/-- A consumed metric's group key is among the fold's keys. -/
theorem groupFold_mem_key (l : List Metric) (acc : List (String × GroupAcc)) (m : Metric)
    (hm : m ∈ l) : groupKey m ∈ (l.foldl groupStep acc).map Prod.fst := by
  induction l generalizing acc with
  | nil => simp at hm
  | cons x rest ih =>
    rcases List.mem_cons.mp hm with h | h
    · subst h
      exact groupFold_key_mono rest _ _ (updAssoc_mem_key _ _ _)
    · exact ih _ h

/-- Dropping zero-count groups does not change the total count, since
a dropped group contributes zero. -/
theorem calc_stats_sum (l : List (String × GroupAcc)) :
    ((l.filterMap fun p => if p.2.count = 0 then none else some (p.1, summarize p.2)).map
        fun p => p.2.count).sum = sumCounts l := by
  induction l with
  | nil => simp [sumCounts]
  | cons p rest ih =>
    by_cases h : p.2.count = 0
    · simpa [List.filterMap_cons, h, sumCounts] using ih
    · simp only [List.filterMap_cons, if_neg h, List.map_cons, List.sum_cons, sumCounts,
        summarize] at ih ⊢
      omega

/-- C9: each fetched record lands in exactly one queue_type group —
the group counts over the whole summary sum to the number of records,
and a record's group key is `queue_type` defaulted to `"unknown"`,
whose group is materialized in the summary; within every reported
group the successful/failed split is exact (a record counts as
successful iff its `status` is exactly `"successful"`), so
`successful_count + failed_count = count` and
`success_rate = round(successful_count / count, 4)`. -/
theorem grouping_accounting (ms : List Metric) (q : String) (s : StatSummary) (m : Metric)
    (hqs : (q, s) ∈ calculate_statistics ms) (hm : m ∈ ms) :
    ((calculate_statistics ms).map fun p => p.2.count).sum = ms.length ∧
    s.successful_count + s.failed_count = s.count ∧
    s.success_rate = pyRound 4 ((s.successful_count : ℚ) / (s.count : ℚ)) ∧
    1 ≤ s.count ∧
    groupKey m = m.queue_type.getD "unknown" ∧
    (∃ s2, (groupKey m, s2) ∈ calculate_statistics ms) := by
  have hinv := groupFold_inv ms [] (by simp)
  obtain ⟨p, hpmem, hpeq⟩ := List.mem_filterMap.mp hqs
  have hpc : ¬p.2.count = 0 := by
    intro h0
    rw [if_pos h0] at hpeq
    exact Option.noConfusion hpeq
  rw [if_neg hpc] at hpeq
  obtain ⟨rfl, rfl⟩ : q = p.1 ∧ s = summarize p.2 := by
    have := Option.some.inj hpeq
    exact ⟨(congrArg Prod.fst this).symm, (congrArg Prod.snd this).symm⟩
  obtain ⟨hsplit, hone⟩ := hinv p hpmem
  refine ⟨?_, hsplit, rfl, hone, rfl, ?_⟩
  · have h1 := calc_stats_sum (groupFold ms)
    have h2 := groupFold_sumCounts ms []
    simp only [sumCounts, List.map_nil, List.sum_nil, Nat.zero_add] at h2
    calc ((calculate_statistics ms).map fun p => p.2.count).sum
        = sumCounts (groupFold ms) := h1
      _ = ms.length := h2
  · have hkey := groupFold_mem_key ms [] m hm
    obtain ⟨p2, hp2, hfst⟩ := List.mem_map.mp hkey
    have hp2c : ¬p2.2.count = 0 := by
      have := (hinv p2 hp2).2
      omega
    refine ⟨summarize p2.2, List.mem_filterMap.mpr ⟨p2, hp2, ?_⟩⟩
    rw [if_neg hp2c, hfst]

/-- Witness for `grouping_accounting` on the single all-absent record. -/
theorem grouping_accounting_witness :
    ("unknown", summarize gUnknown) ∈ calculate_statistics [unknownMetric] ∧
    unknownMetric ∈ [unknownMetric] ∧
    (((calculate_statistics [unknownMetric]).map fun p => p.2.count).sum
        = [unknownMetric].length ∧
      (summarize gUnknown).successful_count + (summarize gUnknown).failed_count
        = (summarize gUnknown).count ∧
      (summarize gUnknown).success_rate
        = pyRound 4 (((summarize gUnknown).successful_count : ℚ)
            / ((summarize gUnknown).count : ℚ)) ∧
      1 ≤ (summarize gUnknown).count ∧
      groupKey unknownMetric = unknownMetric.queue_type.getD "unknown" ∧
      (∃ s2, (groupKey unknownMetric, s2) ∈ calculate_statistics [unknownMetric])) :=
  ⟨List.Mem.head _, List.Mem.head _,
    grouping_accounting [unknownMetric] "unknown" (summarize gUnknown) unknownMetric
      (List.Mem.head _) (List.Mem.head _)⟩

end DeployLambdas
